import Mathlib

/-!
Verification development for the initial-form-value reconciliation subsystem of
the patient-registration module (`patient-registration-hooks` and the
`PatientRegistration` component).

The TypeScript hooks are shallowly embedded as pure Lean functions:

* React `useState`/`useEffect` pairs become explicit state-transition
  functions (`FormValues → FormValues`), one per effect; the guard of each
  effect is translated verbatim, and an effect whose guard is false is the
  identity on the state (no `setState` call).
* JavaScript objects used as string-keyed dictionaries become association
  lists `List (String × α)`; property assignment / `Object.assign` becomes
  `upsert`, which overwrites in place (preserving first-insertion key order,
  as JS objects do) or appends.
* Nullable / optional JS values become `Option`; a thrown `TypeError`
  (dereferencing `undefined`) becomes `Except.error`.
* `dayjs().diff(d, 'month')` is kept abstract as a function parameter
  (`String → Int`), since it depends on the wall clock.
-/

namespace PatientRegistrationHooks

/-- A JS `Date` value, modelled by the components the hooks actually consume:
the hour and minute used by `dayjs(deathDate).format('hh:mm')` and
`dayjs(deathDate).hour()`. -/
structure JsDate where
  hour : Nat
  minute : Nat
deriving DecidableEq, Repr

/-- An OpenMRS REST resource reference, of which the hooks only read `uuid`. -/
structure OpenmrsResource where
  uuid : String
deriving DecidableEq, Repr

/-- Relationship records are carried through the merge opaquely (the hook
never inspects them), so they are modelled as opaque tokens. -/
abbrev Relationship := String

/-- One entry of the identifier map built by `useInitialPatientIdentifiers`
(fields as in the object literal at the heart of that hook). -/
structure IdentifierRecord where
  identifierUuid : String
  preferred : Bool
  initialValue : String
  identifierValue : String
  identifierTypeUuid : String
  identifierName : String
  required : Bool
  selectedSource : Option String
  autoGeneration : Bool
deriving DecidableEq, Repr

/-- An attribute / observation value as delivered by the REST API: either a
scalar (string) or an object reference carrying a concept uuid. -/
inductive JsValue where
  | scalar (s : String)
  | obj (uuid : String)
deriving DecidableEq, Repr

/-- The `attributeType` sub-record of a person attribute response. -/
structure AttributeType where
  uuid : String
  display : String
  format : String
deriving DecidableEq, Repr

/-- One person attribute as fetched by `useInitialPersonAttributes`
(custom representation `uuid,display,attributeType:(uuid,display,format),value`). -/
structure PersonAttributeResponse where
  uuid : String
  display : String
  attributeType : AttributeType
  value : JsValue
deriving DecidableEq, Repr

/-- The `identifierType` sub-record of a patient identifier response. -/
structure PatientIdentifierType where
  uuid : String
  required : Bool
  name : String
deriving DecidableEq, Repr

/-- One patient identifier as fetched by `useInitialPatientIdentifiers`
(custom representation `uuid,identifier,identifierType:(uuid,required,name),preferred`). -/
structure PatientIdentifierResponse where
  uuid : String
  identifier : String
  identifierType : PatientIdentifierType
  preferred : Bool
deriving DecidableEq, Repr

/-- The `DeathInfoResults` interface fetched by `useInitialPersonDeathInfo`.
`deathDate` is the stored death timestamp; `none` models both a `null` field
and an empty string (the code collapses falsy values via
`deathInfo.deathDate || null`), and a present value is already parsed into
the `JsDate` components the effect consumes. -/
structure DeathInfoResults where
  uuid : String
  display : String
  causeOfDeath : Option OpenmrsResource
  dead : Bool
  deathDate : Option JsDate
  causeOfDeathNonCoded : Option String
deriving DecidableEq, Repr

/-- One observation of an encounter (custom representation
`obs:(concept:ref,value:ref)`). -/
structure Obs where
  concept : OpenmrsResource
  value : JsValue
deriving DecidableEq, Repr

/-- One encounter fetched by `useInitialEncounters`; `encounterDatetime` is
the parsed timestamp used by the `latestFirstEncounter` comparator. -/
structure Encounter where
  encounterDatetime : Int
  obs : List Obs
deriving DecidableEq, Repr

/-- The FHIR patient-to-edit record, of which the hooks' inline code reads
`birthDate`; everything the repo's `patient-registration-utils` helpers read
from it stays behind abstract function parameters. -/
structure FhirPatient where
  birthDate : String
deriving DecidableEq, Repr

/-- The `FormValues` form-state record, with the exact field set of the
`useState` initializer literal in `useInitialFormValuesLocal`.  The
`attributes` and `obs` fields are absent (`undefined`) in that literal and
only ever added by the attribute/encounter merges, hence `Option` with
default `none`. -/
structure FormValues where
  patientUuid : String
  givenName : String
  middleName : String
  familyName : String
  additionalGivenName : String
  additionalMiddleName : String
  additionalFamilyName : String
  addNameInLocalLanguage : Bool
  gender : String
  birthdate : Option String
  yearsEstimated : Int
  monthsEstimated : Int
  birthdateEstimated : Bool
  telephoneNumber : String
  isDead : Bool
  deathDate : Option JsDate
  deathTime : Option String
  deathTimeFormat : String
  deathCause : Option String
  nonCodedCauseOfDeath : Option String
  relationships : List Relationship
  identifiers : List (String × IdentifierRecord)
  address : List (String × String)
  attributes : Option (List (String × JsValue)) := none
  obs : Option (List (String × String)) := none
deriving DecidableEq, Repr

/-- The fixed default form state passed to `useState` in
`useInitialFormValuesLocal` (and, with its own fresh uuid, in
`useMpiInitialFormValues`); `freshUuid` stands for the `v4()` call. -/
def defaultFormValues (freshUuid : String) : FormValues where
  patientUuid := freshUuid
  givenName := ""
  middleName := ""
  familyName := ""
  additionalGivenName := ""
  additionalMiddleName := ""
  additionalFamilyName := ""
  addNameInLocalLanguage := false
  gender := ""
  birthdate := none
  yearsEstimated := 0
  monthsEstimated := 0
  birthdateEstimated := false
  telephoneNumber := ""
  isDead := false
  deathDate := none
  deathTime := none
  deathTimeFormat := "AM"
  deathCause := some ""
  nonCodedCauseOfDeath := some ""
  relationships := []
  identifiers := []
  address := []

/-- One queued offline registration from the synchronization queue; the two
`_patientRegistrationData` sub-fields the hooks read.  `formValues := none`
models a queued item whose `_patientRegistrationData.formValues` is
`undefined`/`null`. -/
structure QueuedPatientRegistration where
  formValues : Option FormValues
  initialAddressFieldValues : Option (List (String × String))
deriving DecidableEq, Repr

/-- JS property assignment on a string-keyed object: overwrite the value at
an existing key in place, else append the new key. -/
def upsert {α : Type} (m : List (String × α)) (k : String) (v : α) : List (String × α) :=
  match m with
  | [] => [(k, v)]
  | (k', v') :: rest => if k' = k then (k', v) :: rest else (k', v') :: upsert rest k v

/-- JS object spread / `Object.assign(target, source)`: every entry of the
source overwrites or extends the target, in source order. -/
def objectAssign {α : Type} (target source : List (String × α)) : List (String × α) :=
  source.foldl (fun m p => upsert m p.1 p.2) target

/-- JS truthiness of a nullable string: `null`/`undefined` and `""` are
falsy. -/
def strTruthy : Option String → Bool
  | some s => s ≠ ""
  | none => false

/-! ## lodash `camelCase` (ASCII word path)

`useInitialPatientIdentifiers` keys its map by
`camelCase(patientIdentifier.identifierType.name)`.  For display names made
of ASCII letters, digits and separators (and with no intra-word case
transitions, which would engage lodash's unicode word splitter), lodash's
`camelCase` splits the string into maximal alphanumeric runs, fully
lowercases the first word, and capitalizes each later word after lowercasing
its tail. -/

/-- ASCII alphanumeric characters, the word characters of lodash's
`asciiWords` matcher. -/
def isWordChar (c : Char) : Bool :=
  c.isAlpha || c.isDigit

/-- Split a character list into maximal runs of word characters; `acc` holds
the (reversed) run currently being read. -/
def wordsOfAux : List Char → List Char → List String
  | [], acc => if acc.isEmpty then [] else [String.mk acc.reverse]
  | c :: cs, acc =>
    if isWordChar c then wordsOfAux cs (c :: acc)
    else if acc.isEmpty then wordsOfAux cs []
    else String.mk acc.reverse :: wordsOfAux cs []

/-- The word list of a string (lodash `words` on the ASCII path). -/
def wordsOf (s : String) : List String :=
  wordsOfAux s.toList []

/-- Lowercase every character of a string (JS `toLowerCase` on ASCII). -/
def lowerAll (s : String) : String :=
  String.mk (s.toList.map Char.toLower)

/-- lodash `capitalize` of an already-lowercased word: uppercase the first
character, lowercase the rest. -/
def capitalizeWord (s : String) : String :=
  match s.toList with
  | [] => ""
  | c :: cs => String.mk (c.toUpper :: cs.map Char.toLower)

/-- lodash `camelCase` on ASCII input: first word lowercased, later words
capitalized, all concatenated. -/
def camelCase (s : String) : String :=
  match wordsOf s with
  | [] => ""
  | w :: ws => lowerAll w ++ String.join (ws.map capitalizeWord)

/-! ## Edit-mode birthdate estimation (`useInitialFormValuesLocal`, main effect) -/

/-- The regular expression test from the main effect,
matching exactly a full `YYYY-MM-DD` date (ASCII digits). -/
def isFullPrecisionDate (s : String) : Bool :=
  match s.toList with
  | [a, b, c, d, '-', e, f, '-', g, h] =>
    a.isDigit && b.isDigit && c.isDigit && d.isDigit &&
      e.isDigit && f.isDigit && g.isDigit && h.isDigit
  | _ => false

/-- JS `birthDate.split('-')`: split on every dash, keeping empty segments. -/
def splitDashAux : List Char → List Char → List String
  | [], acc => [String.mk acc.reverse]
  | c :: cs, acc =>
    if c = '-' then String.mk acc.reverse :: splitDashAux cs []
    else splitDashAux cs (c :: acc)

/-- JS `s.split('-')`. -/
def splitDash (s : String) : List String :=
  splitDashAux s.toList []

/-- Result of the inline birthdate-estimation computation. -/
structure BirthdateFields where
  birthdateEstimated : Bool
  yearsEstimated : Int
  monthsEstimated : Int
deriving DecidableEq, Repr

/-- The inline computation of the main effect's edit branch.
`dayjsDiffMonths` stands for `dayjs().diff(birthDate, 'month')` (whole
months from the parsed birthdate to now; dayjs parses a bare year `"YYYY"`
as January 1 of that year).  `Math.floor(x / 12)` on an integer is floor
division; JS `%` is truncating remainder. -/
def computeBirthdateFields (dayjsDiffMonths : String → Int) (birthDate : String) :
    BirthdateFields :=
  let birthdateEstimated := !isFullPrecisionDate birthDate
  let estimatedMonthsAvailable := (splitDash birthDate).length > 1
  { birthdateEstimated := birthdateEstimated
    yearsEstimated :=
      if birthdateEstimated then Int.fdiv (dayjsDiffMonths birthDate) 12 else 0
    monthsEstimated :=
      if birthdateEstimated && estimatedMonthsAvailable then
        Int.tmod (dayjsDiffMonths birthDate) 12
      else 0 }

/-- The edit branch of the main effect (`if (patientToEdit)`), which spreads
the util-derived fragments over the previous state and then writes the three
birthdate-estimation fields on top.  `applyUtils` abstracts
`getFormValuesFromFhirPatient` / `getAddressFieldValuesFromFhirPatient` /
`getPhonePersonAttributeValueFromFhirPatient` (helpers of this repository
that live outside the embedded sources); since the three explicit keys come
after every spread in the object literal, they override whatever
`applyUtils` wrote. -/
def editModeMerge (applyUtils : FhirPatient → FormValues → FormValues)
    (dayjsDiffMonths : String → Int) (patientToEdit : FhirPatient)
    (fv : FormValues) : FormValues :=
  let b := computeBirthdateFields dayjsDiffMonths patientToEdit.birthDate
  { applyUtils patientToEdit fv with
    birthdateEstimated := b.birthdateEstimated
    yearsEstimated := b.yearsEstimated
    monthsEstimated := b.monthsEstimated }

/-! ## Offline-queue lookup (`getPatientRegistration`) -/

/-- The queue lookup `getPatientRegistration`: `items.find(item =>
item._patientRegistrationData.formValues.patientUuid === patientUuid)`.
The predicate dereferences `formValues.patientUuid` without optional
chaining, so a queued item with `formValues` absent makes `Array.find`
throw a `TypeError`; this is modelled by `Except.error`. -/
def getPatientRegistration (patientUuid : String) :
    List QueuedPatientRegistration → Except String (Option QueuedPatientRegistration)
  | [] => Except.ok none
  | item :: rest =>
    match item.formValues with
    | none =>
      Except.error "TypeError: cannot read patientUuid of undefined formValues"
    | some fv =>
      if fv.patientUuid = patientUuid then Except.ok (some item)
      else getPatientRegistration patientUuid rest

/-- The offline-draft fallback body of the main effect (the `else if` branch
of `useInitialFormValuesLocal`): await the queue lookup, then read
`registration._patientRegistrationData.formValues` — a `TypeError` when no
draft matched (`registration` is `undefined`), a logged no-op returning the
current state when the draft has no form values, and a full overwrite with
the draft's stored form values otherwise. -/
def offlineDraftFallback (patientUuid : String)
    (queue : List QueuedPatientRegistration) (current : FormValues) :
    Except String FormValues :=
  match getPatientRegistration patientUuid queue with
  | Except.error e => Except.error e
  | Except.ok none =>
    Except.error "TypeError: cannot read _patientRegistrationData of undefined"
  | Except.ok (some registration) =>
    match registration.formValues with
    | none => Except.ok current
    | some formValues => Except.ok formValues

/-- The main effect of `useInitialFormValuesLocal` (lines guarding on
`patientToEdit` / `!isLoadingPatientToEdit && patientUuid`).  The returned
`Bool` records whether the offline-draft lookup (`getPatientRegistration`)
was invoked.  A thrown `TypeError` inside the async body never calls
`setInitialFormValues`, so the observable state is the unchanged `fv`. -/
def mainEffect (applyUtils : FhirPatient → FormValues → FormValues)
    (dayjsDiffMonths : String → Int) (patientToEdit : Option FhirPatient)
    (isLoadingPatientToEdit : Bool) (patientUuid : String)
    (queue : List QueuedPatientRegistration) (fv : FormValues) :
    FormValues × Bool :=
  match patientToEdit with
  | some p => (editModeMerge applyUtils dayjsDiffMonths p fv, false)
  | none =>
    if !isLoadingPatientToEdit && patientUuid ≠ "" then
      (match offlineDraftFallback patientUuid queue fv with
       | Except.ok fv' => fv'
       | Except.error _ => fv,
       true)
    else (fv, false)

/-! ## The independent per-source merge effects -/

/-- A guarded state update: the common shape of the per-source `useEffect`
bodies (`if (guard) setState(prev => overlay(prev))`). -/
def applyIf (guard : Bool) (f : FormValues → FormValues) (fv : FormValues) : FormValues :=
  if guard then f fv else fv

/-- Guard of the death-info effect: `!isLoadingDeathInfo && deathInfo?.dead`. -/
def deathGuard (isLoading : Bool) (deathInfo : Option DeathInfoResults) : Bool :=
  !isLoading && (match deathInfo with
                 | some d => d.dead
                 | none => false)

/-- The time string `dayjs(deathDate).format('hh:mm')`: 12-hour clock, zero padded. -/
def formatHhMm (t : JsDate) : String :=
  let h12 := if t.hour % 12 = 0 then 12 else t.hour % 12
  let pad := fun (n : Nat) => if n < 10 then "0" ++ toString n else toString n
  pad h12 ++ ":" ++ pad t.minute

/-- The overlay written by the death-info effect when its guard holds. -/
def deathSet (freeTextFieldConceptUuid : String) (deathInfo : Option DeathInfoResults)
    (fv : FormValues) : FormValues :=
  match deathInfo with
  | some d =>
    { fv with
      isDead := d.dead || false
      deathDate := d.deathDate
      deathTime := d.deathDate.map formatHhMm
      deathTimeFormat :=
        match d.deathDate with
        | some t => if 12 ≤ t.hour then "PM" else "AM"
        | none => "AM"
      deathCause :=
        if strTruthy d.causeOfDeathNonCoded then some freeTextFieldConceptUuid
        else d.causeOfDeath.map OpenmrsResource.uuid
      nonCodedCauseOfDeath := d.causeOfDeathNonCoded }
  | none => fv

/-- The death-info effect of `useInitialFormValuesLocal`. -/
def deathInfoEffect (freeTextFieldConceptUuid : String) (isLoading : Bool)
    (deathInfo : Option DeathInfoResults) (fv : FormValues) : FormValues :=
  applyIf (deathGuard isLoading deathInfo) (deathSet freeTextFieldConceptUuid deathInfo) fv

/-- The relationships effect: `if (!isLoadingRelationships && relationships)`
(an array — even empty — is truthy, `undefined` is not). -/
def relationshipsEffect (isLoading : Bool) (relationships : Option (List Relationship))
    (fv : FormValues) : FormValues :=
  applyIf (!isLoading && relationships.isSome)
    (fun fv => { fv with relationships := relationships.getD [] }) fv

/-- The identifiers effect: `if (!isLoadingIdentifiers && identifiers)`; the
identifiers value produced by `useInitialPatientIdentifiers` is always an
object (truthy), possibly empty. -/
def identifiersEffect (isLoading : Bool) (identifiers : List (String × IdentifierRecord))
    (fv : FormValues) : FormValues :=
  applyIf (!isLoading) (fun fv => { fv with identifiers := identifiers }) fv

/-- The attribute map built inside the attributes effect: keyed by
`attribute.attributeType.uuid`; a concept-formatted object value is replaced
by its referenced concept uuid, any other value is stored as-is. -/
def buildPersonAttributes (attributes : List PersonAttributeResponse) :
    List (String × JsValue) :=
  attributes.foldl
    (fun m a =>
      upsert m a.attributeType.uuid
        (match a.value with
         | JsValue.obj u =>
           if a.attributeType.format = "org.openmrs.Concept" then JsValue.scalar u
           else JsValue.obj u
         | JsValue.scalar s => JsValue.scalar s))
    []

/-- The person-attributes effect: `if (!isLoadingAttributes && attributes)`. -/
def attributesEffect (isLoading : Bool)
    (attributes : Option (List PersonAttributeResponse)) (fv : FormValues) : FormValues :=
  applyIf (!isLoading && attributes.isSome)
    (fun fv =>
      { fv with
        attributes := some (buildPersonAttributes (attributes.getD [])) }) fv

/-- The registration-encounters effect: `if (patientToEdit && encounters)`. -/
def encountersEffect (patientToEdit : Option FhirPatient)
    (encounters : Option (List (String × String))) (fv : FormValues) : FormValues :=
  applyIf (patientToEdit.isSome && encounters.isSome)
    (fun fv => { fv with obs := encounters }) fv

/-! ## The four independent sources as commuting merge steps (arrival order) -/

/-- The resolved fragments of the four independent per-source fetches
(death info, relationships, identifiers, attributes) together with their
loading flags and the configuration they consume. -/
structure SourceData where
  freeTextFieldConceptUuid : String
  isLoadingDeathInfo : Bool
  deathInfo : Option DeathInfoResults
  isLoadingRelationships : Bool
  relationships : Option (List Relationship)
  isLoadingIdentifiers : Bool
  identifiers : List (String × IdentifierRecord)
  isLoadingAttributes : Bool
  attributes : Option (List PersonAttributeResponse)

/-- The four independent merge sources of `useInitialFormValuesLocal`. -/
inductive MergeSource where
  | death
  | rels
  | ids
  | attrs
deriving DecidableEq, Repr

/-- Run one source's merge effect on the current snapshot. -/
def applySource (d : SourceData) : MergeSource → FormValues → FormValues
  | MergeSource.death => deathInfoEffect d.freeTextFieldConceptUuid d.isLoadingDeathInfo d.deathInfo
  | MergeSource.rels => relationshipsEffect d.isLoadingRelationships d.relationships
  | MergeSource.ids => identifiersEffect d.isLoadingIdentifiers d.identifiers
  | MergeSource.attrs => attributesEffect d.isLoadingAttributes d.attributes

/-- Run the sources' merge effects in the given arrival order. -/
def applySources (d : SourceData) (arrival : List MergeSource) (fv : FormValues) : FormValues :=
  arrival.foldl (fun s ms => applySource d ms s) fv

/-! ## `useInitialPatientIdentifiers` -/

/-- The `IdentifierRecord` object literal built for one raw identifier
response. -/
def identifierRecordOf (p : PatientIdentifierResponse) : IdentifierRecord where
  identifierUuid := p.uuid
  preferred := p.preferred
  initialValue := p.identifier
  identifierValue := p.identifier
  identifierTypeUuid := p.identifierType.uuid
  identifierName := p.identifierType.name
  required := p.identifierType.required
  selectedSource := none
  autoGeneration := false

/-- The identifier map assembled by `useInitialPatientIdentifiers`: one
entry per response, keyed by `camelCase(identifierType.name)` (a repeated
key overwrites).  An absent / still-loading response yields the empty map. -/
def initialPatientIdentifiers (results : Option (List PatientIdentifierResponse)) :
    List (String × IdentifierRecord) :=
  (results.getD []).foldl
    (fun m p => upsert m (camelCase p.identifierType.name) (identifierRecordOf p)) []

/-! ## `useInitialEncounters` -/

/-- Modelled from the spec: the `latestFirstEncounter` comparator (defined
in this repository's `patient-registration-utils`, outside the embedded
sources) orders encounters by encounter datetime descending.  The in-place
`Array.prototype.sort` with that comparator is modelled as a stable
insertion sort placing each encounter before the first strictly older one. -/
def insertLatestFirst (e : Encounter) : List Encounter → List Encounter
  | [] => [e]
  | x :: xs =>
    if x.encounterDatetime < e.encounterDatetime then e :: x :: xs
    else x :: insertLatestFirst e xs

/-- Sort encounters latest first (see `insertLatestFirst`). -/
def sortLatestFirst (l : List Encounter) : List Encounter :=
  l.foldr insertLatestFirst []

/-- The observation map of one encounter:
`obs.map(({concept, value}) => ({[concept.uuid]: typeof value === 'object' ?
value?.uuid : value})).reduce((accu, curr) => Object.assign(accu, curr), {})`. -/
def obsMapOf (e : Encounter) : List (String × String) :=
  e.obs.foldl
    (fun m o =>
      upsert m o.concept.uuid
        (match o.value with
         | JsValue.obj u => u
         | JsValue.scalar s => s))
    []

/-- The `encounters` value computed by `useInitialEncounters`:
`data?.data.results.sort(latestFirstEncounter)?.at(0)?.obs` mapped and
reduced; `undefined` (no response, or no encounter at index 0) is `none`. -/
def initialEncounters (results : Option (List Encounter)) :
    Option (List (String × String)) :=
  match results with
  | none => none
  | some l => (sortLatestFirst l).head?.map obsMapOf

/-! ## `usePatientUuidMap` -/

/-- The helper `getPatientAttributeUuidMapForPatient`: maps
`attribute.<attributeTypeUuid>` to the attribute instance's own uuid. -/
def getPatientAttributeUuidMapForPatient (attributes : List PersonAttributeResponse) :
    List (String × String) :=
  attributes.foldl
    (fun m a => upsert m ("attribute." ++ a.attributeType.uuid) a.uuid) []

/-- The main effect of `usePatientUuidMap`.  In edit mode the patient-derived
uuid map (via `getPatientUuidMapFromFhirPatient`, a repository helper outside
the embedded sources, kept abstract as `uuidMapFromPatient`) is spread over
the current map; otherwise, once loading is done and an identifier was
supplied, the state is replaced by the queued draft's
`initialAddressFieldValues` or by the fallback (`??` covers both a missing
draft, via optional chaining, and a missing field). -/
def patientUuidMapMainEffect (uuidMapFromPatient : FhirPatient → List (String × String))
    (patientToEdit : Option FhirPatient) (isLoadingPatientToEdit : Bool)
    (patientUuid : String) (queue : List QueuedPatientRegistration)
    (fallback current : List (String × String)) :
    Except String (List (String × String)) :=
  match patientToEdit with
  | some p => Except.ok (objectAssign current (uuidMapFromPatient p))
  | none =>
    if !isLoadingPatientToEdit && patientUuid ≠ "" then
      match getPatientRegistration patientUuid queue with
      | Except.error e => Except.error e
      | Except.ok none => Except.ok fallback
      | Except.ok (some registration) =>
        Except.ok (registration.initialAddressFieldValues.getD fallback)
    else Except.ok current

/-- The attributes effect of `usePatientUuidMap`: `if (attributes)` overlay
the attribute-derived uuid map onto the previous map. -/
def patientUuidMapAttributesEffect (attributes : Option (List PersonAttributeResponse))
    (current : List (String × String)) : List (String × String) :=
  match attributes with
  | some l => objectAssign current (getPatientAttributeUuidMapForPatient l)
  | none => current

/-! ## `useMpiInitialFormValues` and the component's MPI overwrite effect -/

/-- The master-patient-index response: whether `mpiPatient?.data?.identifier`
is truthy (the guard of the MPI hook's effect), plus whatever the repository
helpers read from the record (kept behind the abstract `mpiMerge`
parameter below). -/
structure MpiPatientResponse where
  identifierPresent : Bool

/-- The state held by `useMpiInitialFormValues`: it starts as the fixed
default literal with its own fresh `v4()` uuid, and is replaced by the
one-shot merged import (abstracted as `mpiMerge`, covering
`getFormValuesFromFhirPatient`, `getAddressFieldValuesFromFhirPatient`,
`getIdentifierFieldValuesFromFhirPatient` and the phone attribute helper —
repository code outside the embedded sources) only when the MPI record
resolved with an `identifier` field.  In every case the hook's state is a
full `FormValues` object, never `null`/`undefined`. -/
def mpiHookFormValues (freshUuid : String)
    (mpiMerge : MpiPatientResponse → FormValues → FormValues)
    (mpiPatient : Option MpiPatientResponse) : FormValues :=
  match mpiPatient with
  | some r =>
    if r.identifierPresent then mpiMerge r (defaultFormValues freshUuid)
    else defaultFormValues freshUuid
  | none => defaultFormValues freshUuid

/-- The `PatientRegistration` component's effect
`if (initialMPIFormValues) setInitialFormValues(initialMPIFormValues)`:
a JS-truthy (non-null) MPI state replaces the locally reconciled state. -/
def mpiOverwriteEffect (initialMPIFormValues : Option FormValues)
    (localFormValues : FormValues) : FormValues :=
  match initialMPIFormValues with
  | some v => v
  | none => localFormValues

/-! ## Helper lemmas -/

/-- Any entry of an `upsert` result is an old entry or the inserted pair. -/
lemma mem_upsert {α : Type} (k : String) (v : α) :
    ∀ (m : List (String × α)) (p : String × α), p ∈ upsert m k v → p ∈ m ∨ p = (k, v) := by
  intro m
  induction m with
  | nil =>
    intro p hp
    simp [upsert] at hp
    right
    simp [hp]
  | cons hd tl ih =>
    intro p hp
    obtain ⟨k', v'⟩ := hd
    by_cases hk : k' = k
    · simp only [upsert, if_pos hk] at hp
      rcases List.mem_cons.mp hp with h | h
      · right
        simp [h, hk]
      · left
        exact List.mem_cons_of_mem _ h
    · simp only [upsert, if_neg hk] at hp
      rcases List.mem_cons.mp hp with h | h
      · left
        simp [h]
      · rcases ih p h with h' | h'
        · left
          exact List.mem_cons_of_mem _ h'
        · right
          exact h'

/-- Any entry of a map assembled by repeated keyed insertion is an entry of
the seed map or is derived from one of the inserted items. -/
lemma mem_foldl_upsert {α β : Type} (f : β → String) (g : β → α) :
    ∀ (es : List β) (m : List (String × α)) (p : String × α),
      p ∈ es.foldl (fun acc b => upsert acc (f b) (g b)) m →
      p ∈ m ∨ ∃ b, b ∈ es ∧ p = (f b, g b) := by
  intro es
  induction es with
  | nil =>
    intro m p hp
    left
    simpa using hp
  | cons e rest ih =>
    intro m p hp
    rw [List.foldl_cons] at hp
    rcases ih _ p hp with h | ⟨b, hb, hpb⟩
    · rcases mem_upsert _ _ _ _ h with h' | h'
      · left
        exact h'
      · right
        exact ⟨e, List.mem_cons_self _ _, h'⟩
    · right
      exact ⟨b, List.mem_cons_of_mem _ hb, hpb⟩

/-- Folding a right-commutative step over a list is invariant under
permutation of the list. -/
lemma foldl_perm_of_comm {α β : Type} (f : β → α → β)
    (hc : ∀ (b : β) (a a' : α), f (f b a) a' = f (f b a') a)
    {l₁ l₂ : List α} (h : l₁.Perm l₂) :
    ∀ b : β, l₁.foldl f b = l₂.foldl f b := by
  induction h with
  | nil =>
    intro b
    rfl
  | cons x _ ih =>
    intro b
    simp only [List.foldl_cons]
    exact ih _
  | swap x y l =>
    intro b
    simp only [List.foldl_cons]
    rw [hc]
  | trans _ _ ih₁ ih₂ =>
    intro b
    rw [ih₁, ih₂]

/-- The four independent merge effects commute pairwise: each is a guarded
shallow overlay, and the field sets they write are pairwise disjoint. -/
lemma applySource_comm (d : SourceData) (s s' : MergeSource) (fv : FormValues) :
    applySource d s' (applySource d s fv) = applySource d s (applySource d s' fv) := by
  have hcomm : ∀ (g₁ g₂ : Bool) (f₁ f₂ : FormValues → FormValues),
      (∀ x, f₁ (f₂ x) = f₂ (f₁ x)) →
      ∀ x, applyIf g₁ f₁ (applyIf g₂ f₂ x) = applyIf g₂ f₂ (applyIf g₁ f₁ x) := by
    intro g₁ g₂ f₁ f₂ hf x
    cases g₁ <;> cases g₂ <;> simp [applyIf, hf]
  cases s <;> cases s' <;>
    first
      | rfl
      | (simp only [applySource, deathInfoEffect, relationshipsEffect, identifiersEffect,
          attributesEffect]
         refine hcomm _ _ _ _ (fun x => ?_) fv
         cases d.deathInfo <;> rfl)

/-- Membership is preserved when inserting into the latest-first order. -/
lemma mem_insertLatestFirst (e x : Encounter) :
    ∀ l : List Encounter, x ∈ insertLatestFirst e l → x = e ∨ x ∈ l := by
  intro l
  induction l with
  | nil =>
    intro h
    simp [insertLatestFirst] at h
    left
    exact h
  | cons y ys ih =>
    intro h
    simp only [insertLatestFirst] at h
    split at h
    · rcases List.mem_cons.mp h with h' | h'
      · left
        exact h'
      · right
        exact h'
    · rcases List.mem_cons.mp h with h' | h'
      · right
        simp [h']
      · rcases ih h' with h'' | h''
        · left
          exact h''
        · right
          exact List.mem_cons_of_mem _ h''

/-- Every element of the input list appears in its latest-first sort. -/
lemma mem_sortLatestFirst_of_mem :
    ∀ (l : List Encounter) (x : Encounter), x ∈ l → x ∈ sortLatestFirst l := by
  have hins : ∀ (e x : Encounter) (l : List Encounter),
      (x = e ∨ x ∈ l) → x ∈ insertLatestFirst e l := by
    intro e x l
    induction l with
    | nil =>
      intro h
      rcases h with h | h
      · simp [insertLatestFirst, h]
      · simp at h
    | cons y ys ih =>
      intro h
      simp only [insertLatestFirst]
      split
      · rcases h with h | h
        · simp [h]
        · exact List.mem_cons_of_mem _ h
      · rcases h with h | h
        · exact List.mem_cons_of_mem _ (ih (Or.inl h))
        · rcases List.mem_cons.mp h with h' | h'
          · simp [h']
          · exact List.mem_cons_of_mem _ (ih (Or.inr h'))
  intro l
  induction l with
  | nil =>
    intro x hx
    simp at hx
  | cons a as ih =>
    intro x hx
    rcases List.mem_cons.mp hx with h | h
    · exact hins a x (sortLatestFirst as) (Or.inl h)
    · exact hins a x (sortLatestFirst as) (Or.inr (ih x h))

/-- The head of the latest-first sort is an element of the input list and its
encounter datetime dominates every element's. -/
lemma sortLatestFirst_head_max :
    ∀ (l : List Encounter) (m : Encounter) (t : List Encounter),
      sortLatestFirst l = m :: t →
      m ∈ l ∧ ∀ x ∈ l, x.encounterDatetime ≤ m.encounterDatetime := by
  intro l
  induction l with
  | nil =>
    intro m t h
    simp [sortLatestFirst] at h
  | cons a as ih =>
    intro m t h
    have hstep : sortLatestFirst (a :: as) = insertLatestFirst a (sortLatestFirst as) := rfl
    rw [hstep] at h
    cases hs : sortLatestFirst as with
    | nil =>
      rw [hs] at h
      simp only [insertLatestFirst] at h
      injection h with h1 h2
      subst h1
      refine ⟨List.mem_cons_self _ _, ?_⟩
      intro x hx
      rcases List.mem_cons.mp hx with h' | h'
      · simp [h']
      · exact absurd (hs ▸ mem_sortLatestFirst_of_mem as x h') (by simp)
    | cons y ys =>
      rw [hs] at h
      obtain ⟨hy_mem, hy_max⟩ := ih y ys hs
      simp only [insertLatestFirst] at h
      split at h
      · next hlt =>
        injection h with h1 h2
        subst h1
        refine ⟨List.mem_cons_self _ _, ?_⟩
        intro x hx
        rcases List.mem_cons.mp hx with h' | h'
        · simp [h']
        · exact le_of_lt (lt_of_le_of_lt (hy_max x h') hlt)
      · next hnlt =>
        injection h with h1 h2
        subst h1
        refine ⟨List.mem_cons_of_mem _ hy_mem, ?_⟩
        intro x hx
        rcases List.mem_cons.mp hx with h' | h'
        · subst h'
          exact le_of_not_lt hnlt
        · exact hy_max x h'

/-! ## Claim theorems -/

/-- C1: the claim asserts that a matching queued offline draft lacking
form-value data makes the hook log a diagnostic and leave the form state
unchanged, with `getPatientRegistration` followed by the `formValues` check
never raising.  On the code this fails: `getPatientRegistration`'s `find`
predicate dereferences `item._patientRegistrationData.formValues.patientUuid`
without optional chaining, so a queued draft whose form values are absent
makes the lookup itself throw a `TypeError` (first conjunct, the concrete
failing input), and consequently any draft the lookup does return has form
values, making the diagnostic no-op branch unreachable (second conjunct). -/
theorem C1_queued_draft_without_form_values_throws :
    offlineDraftFallback "p-1"
        [{ formValues := none, initialAddressFieldValues := none }]
        (defaultFormValues "fresh-uuid")
      = Except.error "TypeError: cannot read patientUuid of undefined formValues"
    ∧ ∀ (uuid : String) (queue : List QueuedPatientRegistration)
        (reg : QueuedPatientRegistration),
        getPatientRegistration uuid queue = Except.ok (some reg) →
        reg.formValues.isSome = true := by
  constructor
  · rfl
  · intro uuid queue reg h
    induction queue with
    | nil => simp [getPatientRegistration] at h
    | cons item rest ih =>
      cases hf : item.formValues with
      | none => simp [getPatientRegistration, hf] at h
      | some fv =>
        simp only [getPatientRegistration, hf] at h
        split at h
        · injection h with h'
          injection h' with h''
          rw [← h'', hf]
          rfl
        · exact ih h

/-- C1 witness: the dead-branch fact of `C1_queued_draft_without_form_values_throws`
applied to a concrete queue whose single draft matches and has form values. -/
theorem C1_queued_draft_without_form_values_throws_witness :
    ({ formValues := some (defaultFormValues "p-2"), initialAddressFieldValues := none } :
        QueuedPatientRegistration).formValues.isSome = true :=
  C1_queued_draft_without_form_values_throws.2 "p-2"
    [{ formValues := some (defaultFormValues "p-2"), initialAddressFieldValues := none }]
    _ rfl

/-- C2: in the edit-mode merge, a year-only stored birthdate `"1990"` yields
`birthdateEstimated = true`, `monthsEstimated` forced to `0` (only one
hyphen-separated component, so no month precision), and `yearsEstimated`
equal to the floor of the month difference between now and the parsed date
(dayjs parses `"1990"` as 1990-01-01) divided by 12; a full-precision
`"1990-06-15"` yields `birthdateEstimated = false` and both estimates `0` —
regardless of whatever the util-derived spreads wrote. -/
theorem C2_birthdate_precision (applyUtils : FhirPatient → FormValues → FormValues)
    (dayjsDiffMonths : String → Int) (fv : FormValues) :
    (∀ p : FhirPatient, p.birthDate = "1990" →
      (editModeMerge applyUtils dayjsDiffMonths p fv).birthdateEstimated = true ∧
      (editModeMerge applyUtils dayjsDiffMonths p fv).monthsEstimated = 0 ∧
      (editModeMerge applyUtils dayjsDiffMonths p fv).yearsEstimated =
        Int.fdiv (dayjsDiffMonths "1990") 12) ∧
    (∀ p : FhirPatient, p.birthDate = "1990-06-15" →
      (editModeMerge applyUtils dayjsDiffMonths p fv).birthdateEstimated = false ∧
      (editModeMerge applyUtils dayjsDiffMonths p fv).yearsEstimated = 0 ∧
      (editModeMerge applyUtils dayjsDiffMonths p fv).monthsEstimated = 0) := by
  constructor
  · intro p hp
    obtain ⟨bd⟩ := p
    simp only at hp
    subst hp
    exact ⟨rfl, rfl, rfl⟩
  · intro p hp
    obtain ⟨bd⟩ := p
    simp only at hp
    subst hp
    exact ⟨rfl, rfl, rfl⟩

/-- C2 witness: `C2_birthdate_precision` applied at a concrete patient with
birthdate `"1990"`, identity util spreads and a concrete month difference. -/
theorem C2_birthdate_precision_witness :
    (editModeMerge (fun _ fv => fv) (fun _ => (432 : Int)) ⟨"1990"⟩
        (defaultFormValues "u")).birthdateEstimated = true ∧
    (editModeMerge (fun _ fv => fv) (fun _ => (432 : Int)) ⟨"1990"⟩
        (defaultFormValues "u")).monthsEstimated = 0 ∧
    (editModeMerge (fun _ fv => fv) (fun _ => (432 : Int)) ⟨"1990"⟩
        (defaultFormValues "u")).yearsEstimated = Int.fdiv 432 12 :=
  (C2_birthdate_precision (fun _ fv => fv) (fun _ => (432 : Int))
    (defaultFormValues "u")).1 ⟨"1990"⟩ rfl

/-- C3: for a loaded deceased person with a non-empty non-coded cause the
death merge sets `deathCause` to the configured free-text concept uuid and
`nonCodedCauseOfDeath` to the narrative; with only a coded cause it sets
`deathCause` to that concept's uuid and `nonCodedCauseOfDeath` to null; and
the merge does not fire unless the person is marked deceased (nor on an
absent response). -/
theorem C3_death_cause_merge (freeText : String) (isLoading : Bool)
    (di : DeathInfoResults) (fv : FormValues) :
    (di.dead = true →
      (∀ s : String, s ≠ "" → di.causeOfDeathNonCoded = some s →
        (deathInfoEffect freeText false (some di) fv).deathCause = some freeText ∧
        (deathInfoEffect freeText false (some di) fv).nonCodedCauseOfDeath = some s) ∧
      (di.causeOfDeathNonCoded = none →
        ∀ c : OpenmrsResource, di.causeOfDeath = some c →
          (deathInfoEffect freeText false (some di) fv).deathCause = some c.uuid ∧
          (deathInfoEffect freeText false (some di) fv).nonCodedCauseOfDeath = none)) ∧
    (di.dead = false → deathInfoEffect freeText isLoading (some di) fv = fv) ∧
    deathInfoEffect freeText isLoading none fv = fv := by
  refine ⟨fun hdead => ⟨?_, ?_⟩, fun hdead => ?_, ?_⟩
  · intro s hs hnc
    have hguard : deathGuard false (some di) = true := by
      simp [deathGuard, hdead]
    have htruthy : strTruthy (some s) = true := by
      simp [strTruthy, hs]
    simp [deathInfoEffect, applyIf, hguard, deathSet, hnc, htruthy]
  · intro hnc c hc
    have hguard : deathGuard false (some di) = true := by
      simp [deathGuard, hdead]
    simp [deathInfoEffect, applyIf, hguard, deathSet, hnc, hc, strTruthy]
  · have hguard : deathGuard isLoading (some di) = false := by
      simp [deathGuard, hdead]
    simp [deathInfoEffect, applyIf, hguard]
  · have hguard : deathGuard isLoading none = false := by
      simp [deathGuard]
    simp [deathInfoEffect, applyIf, hguard]

/-- C3 witness: `C3_death_cause_merge` applied to a concrete deceased person
with a non-empty narrative cause. -/
theorem C3_death_cause_merge_witness :
    (deathInfoEffect "free-text-uuid" false
        (some { uuid := "per-1", display := "per-1", causeOfDeath := none, dead := true,
                deathDate := none, causeOfDeathNonCoded := some "overdose" })
        (defaultFormValues "u")).deathCause = some "free-text-uuid" ∧
    (deathInfoEffect "free-text-uuid" false
        (some { uuid := "per-1", display := "per-1", causeOfDeath := none, dead := true,
                deathDate := none, causeOfDeathNonCoded := some "overdose" })
        (defaultFormValues "u")).nonCodedCauseOfDeath = some "overdose" :=
  ((C3_death_cause_merge "free-text-uuid" false
      { uuid := "per-1", display := "per-1", causeOfDeath := none, dead := true,
        deathDate := none, causeOfDeathNonCoded := some "overdose" }
      (defaultFormValues "u")).1 rfl).1 "overdose" (by decide) rfl

/-- C4: with no core record, loading finished, a supplied identifier and an
empty offline queue, the main effect leaves the state at the fixed default
(the draft lookup finds nothing and the subsequent dereference throws, so no
overwrite happens), and every per-source merge with an absent fragment — or
the always-present identifiers map computed from an absent response, which
is empty — maps the default state to itself. -/
theorem C4_no_record_no_draft_default
    (applyUtils : FhirPatient → FormValues → FormValues)
    (dayjsDiffMonths : String → Int) (u : String) (hu : u ≠ "")
    (freeText : String) :
    (mainEffect applyUtils dayjsDiffMonths none false u [] (defaultFormValues u)).1
        = defaultFormValues u
    ∧ (∀ isLoading : Bool,
        deathInfoEffect freeText isLoading none (defaultFormValues u) = defaultFormValues u)
    ∧ (∀ isLoading : Bool,
        relationshipsEffect isLoading none (defaultFormValues u) = defaultFormValues u)
    ∧ identifiersEffect false (initialPatientIdentifiers none) (defaultFormValues u)
        = defaultFormValues u
    ∧ (∀ isLoading : Bool,
        attributesEffect isLoading none (defaultFormValues u) = defaultFormValues u)
    ∧ (∀ encounters, encountersEffect none encounters (defaultFormValues u)
        = defaultFormValues u) := by
  refine ⟨?_, fun isLoading => ?_, fun isLoading => ?_, ?_, fun isLoading => ?_,
    fun encounters => ?_⟩
  · simp [mainEffect, hu, offlineDraftFallback, getPatientRegistration]
  · simp [deathInfoEffect, applyIf, deathGuard]
  · simp [relationshipsEffect, applyIf]
  · rfl
  · simp [attributesEffect, applyIf]
  · rfl

/-- C4 witness: `C4_no_record_no_draft_default` applied at the concrete
identifier `"p-1"`. -/
theorem C4_no_record_no_draft_default_witness :
    (mainEffect (fun _ fv => fv) (fun _ => (0 : Int)) none false "p-1" []
        (defaultFormValues "p-1")).1 = defaultFormValues "p-1" :=
  (C4_no_record_no_draft_default (fun _ fv => fv) (fun _ => (0 : Int)) "p-1"
    (by decide) "free-text-uuid").1

/-- C5: the offline-draft lookup of the main effect runs exactly when the
core-record fetch has completed (`isLoadingPatientToEdit` is false) with no
core record and a non-empty patient identifier — in particular it never
runs while the fetch is still pending, even with an identifier supplied. -/
theorem C5_fallback_gating (applyUtils : FhirPatient → FormValues → FormValues)
    (dayjsDiffMonths : String → Int) (patientToEdit : Option FhirPatient)
    (isLoading : Bool) (u : String) (queue : List QueuedPatientRegistration)
    (fv : FormValues) :
    (mainEffect applyUtils dayjsDiffMonths patientToEdit isLoading u queue fv).2 = true
      ↔ (patientToEdit = none ∧ isLoading = false ∧ u ≠ "") := by
  cases patientToEdit with
  | some p => simp [mainEffect]
  | none =>
    cases isLoading with
    | true => simp [mainEffect]
    | false =>
      by_cases hu : u = ""
      · simp [mainEffect, hu]
      · simp [mainEffect, hu]

/-- C6: for any resolved source fragments, running the death-info,
relationships, identifiers and attributes merges in any arrival order gives
the same final form-state snapshot as the canonical order, because each
merge is a shallow overlay on the latest snapshot and the four sources write
pairwise-disjoint fields. -/
theorem C6_merge_order_independence (d : SourceData) (arrival : List MergeSource)
    (fv : FormValues)
    (h : arrival.Perm [MergeSource.death, MergeSource.rels, MergeSource.ids, MergeSource.attrs]) :
    applySources d arrival fv
      = applySources d
          [MergeSource.death, MergeSource.rels, MergeSource.ids, MergeSource.attrs] fv :=
  foldl_perm_of_comm (fun s ms => applySource d ms s)
    (fun b a a' => applySource_comm d a a' b) h fv

/-- A concrete resolved fragment set used by the order-independence witness. -/
def sampleSourceData : SourceData where
  freeTextFieldConceptUuid := "free-text-uuid"
  isLoadingDeathInfo := false
  deathInfo := some
    { uuid := "per-1", display := "per-1", causeOfDeath := none, dead := true,
      deathDate := none, causeOfDeathNonCoded := some "overdose" }
  isLoadingRelationships := false
  relationships := some ["rel-1"]
  isLoadingIdentifiers := false
  identifiers := []
  isLoadingAttributes := false
  attributes := some []

/-- C6 witness: `C6_merge_order_independence` at a concrete fragment set and
the concrete out-of-order arrival identifiers, attributes, death,
relationships. -/
theorem C6_merge_order_independence_witness :
    applySources sampleSourceData
        [MergeSource.ids, MergeSource.attrs, MergeSource.death, MergeSource.rels]
        (defaultFormValues "u")
      = applySources sampleSourceData
          [MergeSource.death, MergeSource.rels, MergeSource.ids, MergeSource.attrs]
          (defaultFormValues "u") :=
  C6_merge_order_independence _ _ _ (by decide)

/-- C7: the encounter observation map is built from the single most-recent
encounter (when one encounter's datetime strictly dominates all others, the
map is exactly that encounter's observation map, each concept uuid mapped to
the scalar value or the referenced concept uuid), and the encounters merge
never fires outside edit mode (no core record). -/
theorem C7_most_recent_encounter_only (results : List Encounter) (e : Encounter)
    (he : e ∈ results)
    (hmax : ∀ x ∈ results, x ≠ e → x.encounterDatetime < e.encounterDatetime) :
    initialEncounters (some results) = some (obsMapOf e)
    ∧ ∀ (encounters : Option (List (String × String))) (fv : FormValues),
        encountersEffect none encounters fv = fv := by
  constructor
  · cases hs : sortLatestFirst results with
    | nil =>
      exact absurd (mem_sortLatestFirst_of_mem results e he) (by simp [hs])
    | cons m t =>
      obtain ⟨hm, hle⟩ := sortLatestFirst_head_max results m t hs
      have hme : m = e := by
        by_contra hne
        exact absurd (hle e he) (not_le.mpr (hmax m hm hne))
      subst hme
      simp [initialEncounters, hs]
  · intro encounters fv
    rfl

/-- C7 witness: `C7_most_recent_encounter_only` on two concrete encounters,
the later of which carries one coded observation. -/
theorem C7_most_recent_encounter_only_witness :
    initialEncounters
        (some [{ encounterDatetime := 3, obs := [] },
               { encounterDatetime := 7,
                 obs := [{ concept := { uuid := "concept-1" }, value := JsValue.obj "coded-1" }] }])
      = some (obsMapOf
          { encounterDatetime := 7,
            obs := [{ concept := { uuid := "concept-1" }, value := JsValue.obj "coded-1" }] }) :=
  (C7_most_recent_encounter_only
    [{ encounterDatetime := 3, obs := [] },
     { encounterDatetime := 7,
       obs := [{ concept := { uuid := "concept-1" }, value := JsValue.obj "coded-1" }] }]
    { encounterDatetime := 7,
      obs := [{ concept := { uuid := "concept-1" }, value := JsValue.obj "coded-1" }] }
    (by decide) (by decide)).1

/-- C8: identifier-type display names differing only in letter case or in
surrounding whitespace normalize to the same map key (`"National ID"` and
`"National Id"` both key `"nationalId"`), and every record of the built
identifier map starts with its initial value equal to its identifier value,
its selected source unset and auto-generation off. -/
theorem C8_identifier_key_normalization :
    camelCase "National ID" = camelCase "National Id"
    ∧ ∀ (results : List PatientIdentifierResponse) (p : String × IdentifierRecord),
        p ∈ initialPatientIdentifiers (some results) →
        p.2.initialValue = p.2.identifierValue
        ∧ p.2.selectedSource = none
        ∧ p.2.autoGeneration = false := by
  constructor
  · rfl
  · intro results p hp
    rcases mem_foldl_upsert (fun q : PatientIdentifierResponse => camelCase q.identifierType.name)
        identifierRecordOf results [] p hp with h | ⟨b, _, hpb⟩
    · simp at h
    · subst hpb
      exact ⟨rfl, rfl, rfl⟩

/-- A concrete raw identifier response of type `"National ID"` used by the
identifier-map witness. -/
def sampleIdentifierResponse : PatientIdentifierResponse where
  uuid := "id-1"
  identifier := "12345"
  identifierType := { uuid := "t-1", required := true, name := "National ID" }
  preferred := true

/-- C8 witness: `C8_identifier_key_normalization` applied to the map built
from one concrete raw identifier of type `"National ID"`. -/
theorem C8_identifier_key_normalization_witness :
    (identifierRecordOf sampleIdentifierResponse).initialValue
      = (identifierRecordOf sampleIdentifierResponse).identifierValue
    ∧ (identifierRecordOf sampleIdentifierResponse).selectedSource = none
    ∧ (identifierRecordOf sampleIdentifierResponse).autoGeneration = false :=
  C8_identifier_key_normalization.2 [sampleIdentifierResponse]
    ("nationalId", identifierRecordOf sampleIdentifierResponse) (by decide)

/-- C9: the MPI hook's state is a full form-state object for every input
(even with no master-index source record it is the default literal with its
own freshly generated uuid), so the component effect guarded by the JS
truthiness of that state always replaces the locally reconciled values with
the MPI state whenever it runs. -/
theorem C9_mpi_state_always_replaces (freshUuid : String)
    (mpiMerge : MpiPatientResponse → FormValues → FormValues)
    (mpiPatient : Option MpiPatientResponse) (localFormValues : FormValues) :
    mpiOverwriteEffect (some (mpiHookFormValues freshUuid mpiMerge mpiPatient)) localFormValues
        = mpiHookFormValues freshUuid mpiMerge mpiPatient
    ∧ mpiHookFormValues freshUuid mpiMerge none = defaultFormValues freshUuid
    ∧ (defaultFormValues freshUuid).patientUuid = freshUuid :=
  ⟨rfl, rfl, rfl⟩

/-- C10: in `usePatientUuidMap`, with no core record, loading finished and a
supplied identifier, the uuid-map state becomes the matching queued draft's
stored `initialAddressFieldValues` (address initial values), or the
caller-supplied fallback when no draft matches; and the attributes effect
overlays entries keyed `attribute.<attributeTypeUuid>` mapping to each
attribute instance's own uuid whenever attributes resolve (no overlay when
they do not). -/
theorem C10_uuid_map_replacement
    (uuidMapFromPatient : FhirPatient → List (String × String))
    (u : String) (hu : u ≠ "") (queue : List QueuedPatientRegistration)
    (fallback current : List (String × String))
    (attrsList : List PersonAttributeResponse) :
    (∀ (reg : QueuedPatientRegistration) (m : List (String × String)),
      getPatientRegistration u queue = Except.ok (some reg) →
      reg.initialAddressFieldValues = some m →
      patientUuidMapMainEffect uuidMapFromPatient none false u queue fallback current
        = Except.ok m)
    ∧ (getPatientRegistration u queue = Except.ok none →
      patientUuidMapMainEffect uuidMapFromPatient none false u queue fallback current
        = Except.ok fallback)
    ∧ patientUuidMapAttributesEffect (some attrsList) current
        = objectAssign current (getPatientAttributeUuidMapForPatient attrsList)
    ∧ (∀ p : String × String, p ∈ getPatientAttributeUuidMapForPatient attrsList →
        ∃ a, a ∈ attrsList ∧ p = ("attribute." ++ a.attributeType.uuid, a.uuid))
    ∧ patientUuidMapAttributesEffect none current = current := by
  refine ⟨?_, ?_, rfl, ?_, rfl⟩
  · intro reg m hreg hm
    simp [patientUuidMapMainEffect, hu, hreg, hm]
  · intro hreg
    simp [patientUuidMapMainEffect, hu, hreg]
  · intro p hp
    rcases mem_foldl_upsert
        (fun a : PersonAttributeResponse => "attribute." ++ a.attributeType.uuid)
        (fun a => a.uuid) attrsList [] p hp with h | ⟨b, hb, hpb⟩
    · simp at h
    · exact ⟨b, hb, hpb⟩

/-- C10 witness: `C10_uuid_map_replacement` with a concrete queue holding one
matching draft whose stored address initial values replace the map. -/
theorem C10_uuid_map_replacement_witness :
    patientUuidMapMainEffect (fun _ => []) none false "p-3"
        [{ formValues := some (defaultFormValues "p-3"),
           initialAddressFieldValues := some [("country", "preset-country")] }]
        [] []
      = Except.ok [("country", "preset-country")] :=
  (C10_uuid_map_replacement (fun _ => []) "p-3" (by decide)
      [{ formValues := some (defaultFormValues "p-3"),
         initialAddressFieldValues := some [("country", "preset-country")] }]
      [] [] []).1
    { formValues := some (defaultFormValues "p-3"),
      initialAddressFieldValues := some [("country", "preset-country")] }
    [("country", "preset-country")] rfl rfl

end PatientRegistrationHooks
